import Mathlib

/-!
# Verification of the CLUBAL kiosk core (sal.py schedule classifier, weather.py fetch cache)

Shallow embedding of the temporal schedule resolver / classifier of
`SAL_SESI_Agenda_Live/sal.py` and of the weather fetch pipeline of
`BACKUP/weather.py`, with theorems settling the frozen claims about them.

Modelling conventions:
* Instants are rational numbers of minutes since an epoch placed at the
  midnight of a Monday; calendar dates are integer day numbers, so the
  weekday of day `d` is `d % 7` with Monday = 0 (as Python's
  `date.weekday()`), and `datetime.combine(d, t)` is `1440 * d + t`.
* Python floats are modelled by rationals (exact real arithmetic).
* Python string functions used by the code are re-implemented on `List Char`
  (ASCII semantics; Python's additional Unicode whitespace/case folding and
  numeric-underscore literals are not exercised by the repository's data and
  are not modelled).
* Fallible Python code returns `Option`/`Except`; an uncaught Python
  exception is an `Except.error`.
-/

namespace Clubal

/-! ## Python string primitives (ASCII semantics) -/

/-- Characters stripped by Python's `str.strip()` (ASCII whitespace). -/
def pyIsSpace (c : Char) : Bool :=
  c = ' ' || c = '\t' || c = '\n' || c = '\x0d' || c = '\x0b' || c = '\x0c'

/-- `str.strip()`: drop whitespace from both ends. -/
def pyStrip (l : List Char) : List Char :=
  (l.dropWhile pyIsSpace).reverse.dropWhile pyIsSpace |>.reverse

/-- ASCII uppercasing, as applied by `.upper()` to the repository's day codes. -/
def upChar (c : Char) : Char :=
  if 97 ≤ c.toNat ∧ c.toNat ≤ 122 then Char.ofNat (c.toNat - 32) else c

def pyUpper (l : List Char) : List Char := l.map upChar

/-- `str.split(sep)` for a one-character separator, Python semantics:
`"a:b" ↦ ["a","b"]`, `":" ↦ ["",""]`, `"" ↦ [""]`. -/
def splitOnChar (sep : Char) : List Char → List (List Char)
  | [] => [[]]
  | c :: cs =>
    let r := splitOnChar sep cs
    if c = sep then [] :: r
    else
      match r with
      | h :: t => (c :: h) :: t
      | [] => [[c]]

def isAsciiDigit (c : Char) : Bool := 48 ≤ c.toNat ∧ c.toNat ≤ 57

def digitsToNat (l : List Char) : ℕ :=
  l.foldl (fun acc c => 10 * acc + (c.toNat - 48)) 0

/-- The digits-only body accepted by Python's `int()` after sign removal. -/
def digitsVal (l : List Char) : Option ℤ :=
  if l ≠ [] ∧ l.all isAsciiDigit then some (digitsToNat l) else none

/-- Python `int(str)`: strip surrounding whitespace, optional sign, decimal
digits (underscore grouping not modelled); `none` when `int()` would raise. -/
def pyInt (l : List Char) : Option ℤ :=
  match pyStrip l with
  | [] => none
  | c :: ds =>
    if c = '+' then digitsVal ds
    else if c = '-' then (digitsVal ds).map Int.neg
    else digitsVal (c :: ds)

/-! ## TimeMath: `parse_hhmm` and weekday anchoring (sal.py lines 196-215, 337-368) -/

/-- `parse_hhmm` (sal.py 196-215): accepts `HH:MM` or `HH:MM:SS`; strips the
text, splits on `:`, requires at least two fields, parses the first two with
`int()`, and range-checks hour/minute; any further fields are ignored.
Returns `none` instead of raising on any failure. -/
def parse_hhmm (s : String) : Option ℤ :=
  let l := pyStrip s.data
  if l = [] then none
  else
    let parts := splitOnChar ':' l
    if parts.length < 2 then none
    else
      match parts with
      | p0 :: p1 :: _ =>
        match pyInt p0, pyInt p1 with
        | some hh, some mm =>
          if 0 ≤ hh ∧ hh ≤ 23 ∧ 0 ≤ mm ∧ mm ≤ 59 then some (hh * 60 + mm) else none
        | _, _ => none
      | _ => none

/-- `DAY_TO_WD` (sal.py 337). -/
def dayToWd : List Char → Option ℤ
  | ['S', 'E', 'G'] => some 0
  | ['T', 'E', 'R'] => some 1
  | ['Q', 'U', 'A'] => some 2
  | ['Q', 'U', 'I'] => some 3
  | ['S', 'E', 'X'] => some 4
  | ['S', 'A', 'B'] => some 5
  | ['D', 'O', 'M'] => some 6
  | _ => none

/-- `now.date()` for an instant in minutes since the epoch: the day number,
`⌊t / 1440⌋` (computed as a nested floor division, avoiding `Int.floor`). -/
def dateOf (t : ℚ) : ℤ := Int.fdiv (Int.fdiv t.num t.den) 1440

/-- `_best_date_for_daycode` (sal.py 340-349): strip/uppercase the day code,
look it up, and pick the first of {yesterday, today, tomorrow} whose weekday
matches; fall back to today's date when none matches. -/
def bestDateForDaycode (nowDate : ℤ) (dayCode : String) : Option ℤ :=
  match dayToWd (pyUpper (pyStrip dayCode.data)) with
  | none => none
  | some wd =>
    match [nowDate - 1, nowDate, nowDate + 1].find? (fun d => d % 7 == wd) with
    | some d => some d
    | none => some nowDate

/-- `ClassItem` (sal.py 181-189). `end` is a Lean keyword, hence `end_`. -/
structure ClassItem where
  day : String
  start : String
  end_ : String
  activity : String
  teacher : String
  location : String
  tag : String
  deriving DecidableEq, Repr

/-- `_item_interval_debug` (sal.py 352-368): anchor the entry's weekday near
the reference, combine with the parsed times, and push the end forward one
day when it does not land strictly after the start. `datetime.combine`
produces whole-minute instants, so the endpoints are integers (minutes since
the epoch). -/
def itemInterval (now : ℚ) (it : ClassItem) : Option (ℤ × ℤ) × String :=
  match bestDateForDaycode (dateOf now) it.day with
  | none => (none, "invalid_day")
  | some d =>
    match parse_hhmm it.start, parse_hhmm it.end_ with
    | some ts, some te =>
      let s : ℤ := 1440 * d + ts
      let e : ℤ := 1440 * d + te
      let e := if e ≤ s then e + 1440 else e
      (some (s, e), "ok")
    | _, _ => (none, "invalid_time")

/-! ## Classifier: `SALApp._compute_now_next` (sal.py 1298-1360) -/

/-- Python's binary `max` on rationals (kernel-computable form). -/
def qmax (a b : ℚ) : ℚ := if a ≤ b then b else a

/-- Python's binary `min` on rationals (kernel-computable form). -/
def qmin (a b : ℚ) : ℚ := if a ≤ b then a else b

theorem qmax_eq_max (a b : ℚ) : qmax a b = max a b := by
  unfold qmax
  split
  · exact (max_eq_right (by assumption)).symm
  · exact (max_eq_left (le_of_not_le (by assumption))).symm

theorem qmin_eq_min (a b : ℚ) : qmin a b = min a b := by
  unfold qmin
  split
  · exact (min_eq_left (by assumption)).symm
  · exact (min_eq_right (le_of_not_le (by assumption))).symm

/-- One element of `now_list` / `next_list` (the 9-tuples built at sal.py
1326-1327 and 1339-1340). -/
structure Row where
  start : String
  end_ : String
  activity : String
  teacher : String
  location : String
  tag : String
  progress : ℚ
  endDt : ℤ
  startDt : ℤ
  deriving DecidableEq, Repr

/-- One element of `now_cards` / `next_cards` (the 7-tuples at sal.py
1345-1346). -/
structure Card where
  start : String
  end_ : String
  activity : String
  teacher : String
  location : String
  tag : String
  progress : ℚ
  deriving DecidableEq, Repr

def Row.toCard (r : Row) : Card :=
  ⟨r.start, r.end_, r.activity, r.teacher, r.location, r.tag, r.progress⟩

/-- How a single schedule item fares in one classification pass. -/
inductive ItemClass where
  | cur (r : Row)
  | upc (r : Row)
  | off
  deriving DecidableEq, Repr

/-- The per-item body of the loop at sal.py 1309-1340, with the lookahead
window (the literal `minutes=120` at line 1300) exposed as `lookMin` so the
claims about the window can be stated; the program always uses `lookMin = 120`
(see `classifyItem`). `window_end - now` and the second ratios in the source
equal the minute ratios used here. -/
def classifyItemW (lookMin now : ℚ) (it : ClassItem) : ItemClass :=
  match (itemInterval now it).1 with
  | none => .off
  | some (s, e) =>
    if (s : ℚ) ≤ now ∧ now < (e : ℚ) then
      let total : ℚ := (e : ℚ) - (s : ℚ)
      let done : ℚ := now - (s : ℚ)
      let progress := if total ≤ 0 then 0 else qmax 0 (qmin 1 (done / total))
      .cur ⟨it.start, it.end_, it.activity, it.teacher, it.location, it.tag, progress, e, s⟩
    else if now ≤ (s : ℚ) ∧ (s : ℚ) ≤ now + lookMin then
      let progressNext := if lookMin ≤ 0 then 0 else qmax 0 (qmin 1 (1 - ((s : ℚ) - now) / lookMin))
      let progressNext := qmax (1 / 50) progressNext
      .upc ⟨it.start, it.end_, it.activity, it.teacher, it.location, it.tag, progressNext, e, s⟩
    else .off

/-- The loop with the source's fixed 120-minute lookahead. -/
def classifyItem (now : ℚ) (it : ClassItem) : ItemClass := classifyItemW 120 now it

/-- `now_list` as built by the loop (before sorting). -/
def nowRowsW (lookMin now : ℚ) (items : List ClassItem) : List Row :=
  items.filterMap fun it =>
    match classifyItemW lookMin now it with
    | .cur r => some r
    | _ => none

/-- `next_list` as built by the loop (before sorting). -/
def nextRowsW (lookMin now : ℚ) (items : List ClassItem) : List Row :=
  items.filterMap fun it =>
    match classifyItemW lookMin now it with
    | .upc r => some r
    | _ => none

def nowRows (now : ℚ) (items : List ClassItem) : List Row := nowRowsW 120 now items

def nextRows (now : ℚ) (items : List ClassItem) : List Row := nextRowsW 120 now items

/-- Sort key for `now_list.sort(key=lambda t: t[7])` (end instant). -/
def rowEndLe (a b : Row) : Prop := a.endDt ≤ b.endDt

/-- Sort key for `next_list.sort(key=lambda t: t[8])` (start instant). -/
def rowStartLe (a b : Row) : Prop := a.startDt ≤ b.startDt

instance : DecidableRel rowEndLe := fun a b => inferInstanceAs (Decidable (a.endDt ≤ b.endDt))

instance : DecidableRel rowStartLe := fun a b => inferInstanceAs (Decidable (a.startDt ≤ b.startDt))

instance : IsTotal Row rowEndLe := ⟨fun a b => le_total a.endDt b.endDt⟩

instance : IsTrans Row rowEndLe := ⟨fun _ _ _ h h' => le_trans h h'⟩

instance : IsTotal Row rowStartLe := ⟨fun a b => le_total a.startDt b.startDt⟩

instance : IsTrans Row rowStartLe := ⟨fun _ _ _ h h' => le_trans h h'⟩

/-- `SALApp._compute_now_next` (sal.py 1298-1360): classify every item,
sort `now_list` by end instant and `next_list` by start instant (Python's
stable sort, modelled by stable insertion sort), project to the 7-tuples
and truncate each list to 6 cards. -/
def computeNowNext (now : ℚ) (items : List ClassItem) : List Card × List Card :=
  let nowSorted := (nowRows now items).insertionSort rowEndLe
  let nextSorted := (nextRows now items).insertionSort rowStartLe
  ((nowSorted.map Row.toCard).take 6, (nextSorted.map Row.toCard).take 6)

/-! ## Weather module (`BACKUP/weather.py`)

JSON values as produced by `json.load`; Python's `None` and JSON `null` are
the same object and both are modelled by `JVal.jnull`. -/

inductive JVal where
  | jnull
  | jbool (b : Bool)
  | jnum (q : ℚ)
  | jstr (s : String)
  | jarr (xs : List JVal)
  | jobj (fs : List (String × JVal))

/-- Uncaught Python exceptions. -/
inductive PyErr where
  | attributeError
  | typeError
  | indexError
  | keyError
  deriving DecidableEq, Repr

/-- Python truthiness of a JSON value. -/
def truthy : JVal → Bool
  | .jnull => false
  | .jbool b => b
  | .jnum q => q ≠ 0
  | .jstr s => s ≠ ""
  | .jarr xs => !xs.isEmpty
  | .jobj fs => !fs.isEmpty

def isDict : JVal → Bool
  | .jobj _ => true
  | _ => false

/-- `x.get(k, default)`: raises `AttributeError` unless `x` is a dict; the
default applies only when the key is absent (a stored JSON `null` is
returned as `None`, i.e. `jnull`). -/
def pyGetD (v : JVal) (k : String) (d : JVal) : Except PyErr JVal :=
  match v with
  | .jobj fs => .ok ((fs.lookup k).getD d)
  | _ => .error .attributeError

/-- `x.get(k)` (default `None`). -/
def pyGet (v : JVal) (k : String) : Except PyErr JVal := pyGetD v k .jnull

/-- `x[0]` as used at weather.py line 330. -/
def pySub0 : JVal → Except PyErr JVal
  | .jarr [] => .error .indexError
  | .jarr (x :: _) => .ok x
  | .jstr s =>
    match s.data with
    | [] => .error .indexError
    | c :: _ => .ok (.jstr (String.mk [c]))
  | .jobj _ => .error .keyError
  | _ => .error .typeError

/-- `for item in v`: lists iterate their elements, strings their characters,
dicts their keys; other values raise `TypeError`. -/
def toIter : JVal → Except PyErr (List JVal)
  | .jarr xs => .ok xs
  | .jstr s => .ok (s.data.map fun c => .jstr (String.mk [c]))
  | .jobj fs => .ok (fs.map fun p => .jstr p.1)
  | _ => .error .typeError

/-- Python's banker's rounding `round(q)` (half to even), in integer
arithmetic on the rational's numerator and denominator. -/
def pyRound (q : ℚ) : ℤ :=
  let f := Int.fdiv q.num (q.den : ℤ)
  let rnum := q.num - f * (q.den : ℤ)
  if 2 * rnum < (q.den : ℤ) then f
  else if (q.den : ℤ) < 2 * rnum then f + 1
  else if f % 2 = 0 then f else f + 1

/-- `float(str)` on the decimal forms `[sign] digits [. digits]` /
`[sign] . digits` (exponents, `inf`/`nan` and underscore grouping are not
exercised by the repository's data and are not modelled). -/
def strToFloat (l : List Char) : Option ℚ :=
  let l := pyStrip l
  let core : List Char → Option ℚ := fun body =>
    match splitOnChar '.' body with
    | [ip] =>
      if ip ≠ [] ∧ ip.all isAsciiDigit then some ((digitsToNat ip : ℤ) : ℚ) else none
    | [ip, fp] =>
      if (ip ≠ [] ∨ fp ≠ []) ∧ ip.all isAsciiDigit ∧ fp.all isAsciiDigit then
        some (((digitsToNat ip : ℤ) : ℚ) + mkRat (digitsToNat fp : ℤ) (10 ^ fp.length))
      else none
    | _ => none
  match l with
  | '+' :: body => core body
  | '-' :: body => (core body).map Neg.neg
  | body => core body

/-- `float(x)` for a JSON value; `none` when `float()` would raise. -/
def pyFloat : JVal → Option ℚ
  | .jnum q => some q
  | .jbool b => some (if b then 1 else 0)
  | .jstr s => strToFloat s.data
  | _ => none

/-- `_safe_int` (weather.py 47-51): `int(round(float(x)))`, `None` on any
failure. -/
def safe_int (v : JVal) : Option ℤ := (pyFloat v).map pyRound

/-- Python's binary `min` on integers. -/
def zmin (a b : ℤ) : ℤ := if a ≤ b then a else b

/-- Python's binary `max` on integers. -/
def zmax (a b : ℤ) : ℤ := if b ≤ a then a else b

/-- `_minmax_tomorrow` (weather.py 309-319): fold over the whole timeseries,
tracking the min and max of every parseable `air_temperature`. The items'
timestamps are never read. -/
def minmaxTomorrow (timeseries : JVal) : Except PyErr (Option ℤ × Option ℤ) := do
  let items ← toIter timeseries
  items.foldlM (fun acc item => do
    let data ← pyGetD item "data" (.jobj [])
    let instant ← pyGetD data "instant" (.jobj [])
    let details ← pyGetD instant "details" (.jobj [])
    let tv ← pyGet details "air_temperature"
    match safe_int tv with
    | none => pure acc
    | some temp =>
      pure (some (match acc.1 with | none => temp | some m => zmin m temp),
            some (match acc.2 with | none => temp | some m => zmax m temp)))
    ((none, none) : Option ℤ × Option ℤ)

/-- `_pick_period` (weather.py 301-306). -/
def pickPeriod (nowHour : ℤ) : String :=
  if 6 ≤ nowHour ∧ nowHour ≤ 11 then "manhã"
  else if 12 ≤ nowHour ∧ nowHour ≤ 17 then "tarde"
  else "noite"

/-- `needle in hay` on character lists. -/
def isPre : List Char → List Char → Bool
  | [], _ => true
  | _ :: _, [] => false
  | a :: as, b :: bs => a = b && isPre as bs

def containsSub (hay needle : List Char) : Bool :=
  isPre needle hay ||
    match hay with
    | [] => false
    | _ :: t => containsSub t needle

/-- ASCII lowercasing (`str.lower()` on the ASCII symbol codes). -/
def lowChar (c : Char) : Char :=
  if 65 ≤ c.toNat ∧ c.toNat ≤ 90 then Char.ofNat (c.toNat + 32) else c

def pyLower (l : List Char) : List Char := l.map lowChar

/-- The keyword-priority body of `humanize` (weather.py 338-356) on an
already-lowercased character list. -/
def humanizeStr (s : List Char) : String :=
  if containsSub s "thunder".data then "Tempestade"
  else if containsSub s "snow".data then "Neve"
  else if containsSub s "rain".data || containsSub s "sleet".data then
    if containsSub s "heavyrain".data || containsSub s "rainshowersandthunder".data
        || containsSub s "heavyrainshowers".data then "Chuva forte"
    else if containsSub s "lightrain".data || containsSub s "lightrainshowers".data then
      "Chuva fraca"
    else "Chuva"
  else if containsSub s "cloudy".data then
    if containsSub s "partly".data then "Parcialmente nublado" else "Nublado"
  else if containsSub s "clearsky".data || containsSub s "fair".data then "Céu limpo"
  else "Tempo instável"

/-- `humanize(sym)`: falsy values give the placeholder, strings are
lowercased and matched, any other truthy value makes `.lower()` raise. -/
def humanize (sym : JVal) : Except PyErr String :=
  if !truthy sym then .ok "Sem dados"
  else
    match sym with
    | .jstr s => .ok (humanizeStr (pyLower s.data))
    | _ => .error .attributeError

/-- `WeatherResult` (weather.py 26-34). `symbol_code` and `cache_ts` hold
whatever Python value the code put there (`jnull` for `None`). -/
structure WeatherResult where
  ok : Bool
  temp_c : Option ℤ
  today_label : String
  tomorrow_label : String
  symbol_code : JVal
  source : String
  cache_ts : JVal

/-- `_extract_summary` (weather.py 322-371). `nowTs` stands for
`int(time.time())` at the moment of the call. -/
def extractSummary (payload : JVal) (nowHour : ℤ) (nowTs : ℤ) :
    Except PyErr WeatherResult := do
  let props ← pyGetD payload "properties" (.jobj [])
  let timeseries ← pyGetD props "timeseries" (.jarr [])
  let tempSym ←
    if truthy timeseries then do
      let ts0 ← pySub0 timeseries
      let first ← pyGetD ts0 "data" (.jobj [])
      let instant ← pyGetD first "instant" (.jobj [])
      let details ← pyGetD instant "details" (.jobj [])
      let tv ← pyGet details "air_temperature"
      let n1h ← pyGetD first "next_1_hours" (.jobj [])
      let n1s ← pyGetD n1h "summary" (.jobj [])
      let n1 ← pyGet n1s "symbol_code"
      let n6h ← pyGetD first "next_6_hours" (.jobj [])
      let n6s ← pyGetD n6h "summary" (.jobj [])
      let n6 ← pyGet n6s "symbol_code"
      pure (safe_int tv, if truthy n1 then n1 else n6)
    else pure ((none : Option ℤ), JVal.jnull)
  let period := pickPeriod nowHour
  let hum ← humanize tempSym.2
  let mm ← minmaxTomorrow timeseries
  let tomorrowLabel :=
    match mm.1, mm.2 with
    | some a, some b => "Amanhã: " ++ toString a ++ "–" ++ toString b ++ "°C"
    | _, _ => "Amanhã: —"
  pure { ok := true
         temp_c := tempSym.1
         today_label := "Hoje (" ++ period ++ "): " ++ hum
         tomorrow_label := tomorrowLabel
         symbol_code := tempSym.2
         source := "online"
         cache_ts := .jnum (nowTs : ℚ) }

/-- The sentinel "no data" snapshot (weather.py 437-445). -/
def sentinelResult : WeatherResult :=
  { ok := false
    temp_c := none
    today_label := "Sem dados"
    tomorrow_label := "Amanhã: —"
    symbol_code := .jnull
    source := "cache"
    cache_ts := .jnull }

/-- The `except` branch of `get_weather` (weather.py 420-445): `cached` is
what `_read_json` returned (`none` for a missing/corrupt file). Mirrors the
evaluation order of `if cached and isinstance(cached.get("payload"), dict)`;
an exception raised inside this handler propagates to the caller. -/
def getWeatherFallback (cached : Option JVal) (nowHour nowTs : ℤ) :
    Except PyErr WeatherResult :=
  match cached with
  | none => .ok sentinelResult
  | some c =>
    if truthy c then
      match pyGet c "payload" with
      | .error e => .error e
      | .ok pv =>
        if isDict pv then
          match extractSummary pv nowHour nowTs with
          | .error e => .error e
          | .ok res =>
            match pyGet c "ts" with
            | .error e => .error e
            | .ok tsv => .ok { res with source := "cache", cache_ts := tsv, ok := true }
        else .ok sentinelResult
    else .ok sentinelResult

/-- `get_weather` (weather.py 378-445), with the network modelled by the
outcome of the `try` block: `some payload` when `_http_get_json` returned a
parsed body, `none` when it (or anything else in the `try` block) raised.
Cache-file writes are side effects outside the returned value. -/
def getWeatherModel (net : Option JVal) (cached : Option JVal) (nowHour nowTs : ℤ) :
    Except PyErr WeatherResult :=
  match net with
  | some payload =>
    match extractSummary payload nowHour nowTs with
    | .ok res => .ok res
    | .error _ => getWeatherFallback cached nowHour nowTs
  | none => getWeatherFallback cached nowHour nowTs

/-! ## `_http_get_json` retry policy (weather.py 244-294) -/

/-- What one network attempt does. -/
inductive NetOutcome where
  | success (payload : JVal)
  | httpError
  | urlError
  | exc

inductive NetErr where
  | http
  | url
  | other
  deriving DecidableEq, Repr

/-- The result of `_http_get_json` together with how many attempts were made
and the list of `time.sleep` delays (in seconds) performed. -/
structure HttpRun where
  result : Except NetErr JVal
  attempts : ℕ
  sleeps : List ℚ

/-- `_http_get_json` (weather.py 244-294): loop over attempts `(1, 2)`;
an `HTTPError` re-raises immediately; a `URLError` or any other exception
sleeps 0.4 s and retries once when it was the first attempt, and re-raises
on the second. -/
def httpGetJson (net : ℕ → NetOutcome) : HttpRun :=
  match net 1 with
  | .success p => ⟨.ok p, 1, []⟩
  | .httpError => ⟨.error .http, 1, []⟩
  | .urlError =>
    match net 2 with
    | .success p => ⟨.ok p, 2, [2 / 5]⟩
    | .httpError => ⟨.error .http, 2, [2 / 5]⟩
    | .urlError => ⟨.error .url, 2, [2 / 5]⟩
    | .exc => ⟨.error .other, 2, [2 / 5]⟩
  | .exc =>
    match net 2 with
    | .success p => ⟨.ok p, 2, [2 / 5]⟩
    | .httpError => ⟨.error .http, 2, [2 / 5]⟩
    | .urlError => ⟨.error .url, 2, [2 / 5]⟩
    | .exc => ⟨.error .other, 2, [2 / 5]⟩

/-! ## Spec-side definitions (for refinement comparisons only) -/

/-- Modelled from the spec (§4.4 step 4): the "tomorrow" min/max is taken
over only those forecast points whose timestamp falls in the next-day
bucket. Timestamps are modelled as instants (minutes since the epoch) in the
items' `"time"` field; the next-day bucket of `todayDate` is day
`todayDate + 1`. Temperatures are read exactly as the code reads them. -/
def minmaxTomorrowSpec (todayDate : ℤ) (items : List JVal) : Option ℤ × Option ℤ :=
  let isNextDay : JVal → Bool := fun item =>
    match item with
    | .jobj fs =>
      match fs.lookup "time" with
      | some (.jnum t) => dateOf t == todayDate + 1
      | _ => false
    | _ => false
  let temps := (items.filter isNextDay).filterMap fun item =>
    match item with
    | .jobj fs =>
      match fs.lookup "data" with
      | some d =>
        match pyGetD d "instant" (.jobj []) with
        | .ok inst =>
          match pyGetD inst "details" (.jobj []) with
          | .ok det =>
            match pyGet det "air_temperature" with
            | .ok tv => safe_int tv
            | .error _ => none
          | .error _ => none
        | .error _ => none
      | none => none
    | _ => none
  (temps.foldl (fun acc t => some (match acc with | none => t | some m => zmin m t)) none,
   temps.foldl (fun acc t => some (match acc with | none => t | some m => zmax m t)) none)

/-- Modelled from the spec (§4.1 and claim C8): a well-formed `HH:MM` or
`HH:MM:SS` time text, two decimal digits per field. -/
def wellFormedTime (s : String) : Bool :=
  match s.data with
  | [a, b, ':', c, d] => a.isDigit && b.isDigit && c.isDigit && d.isDigit
  | [a, b, ':', c, d, ':', e, f] =>
    a.isDigit && b.isDigit && c.isDigit && d.isDigit && e.isDigit && f.isDigit
  | _ => false

/-! ## Shared lemmas about the time parser and the interval resolver -/

/-- Any value the parser returns is a minute of day: `0 ≤ m < 1440`. -/
theorem parse_hhmm_range {s : String} {m : ℤ} (h : parse_hhmm s = some m) :
    0 ≤ m ∧ m < 1440 := by
  simp only [parse_hhmm] at h
  split at h
  · exact absurd h (by simp)
  · split at h
    · exact absurd h (by simp)
    · split at h
      · split at h
        · split at h
          · rename_i hrange
            obtain ⟨h0, h23, hm0, hm59⟩ := hrange
            simp only [Option.some.injEq] at h
            omega
          · exact absurd h (by simp)
        · exact absurd h (by simp)
      · exact absurd h (by simp)

/-- A resolved interval always has its end strictly after its start, and at
most one day after it. -/
theorem itemInterval_bounds {now : ℚ} {it : ClassItem} {s e : ℤ}
    (h : (itemInterval now it).1 = some (s, e)) : s < e ∧ e ≤ s + 1440 := by
  unfold itemInterval at h
  split at h
  · exact absurd h (by simp)
  · split at h
    · rename_i hts hte
      have hts' := parse_hhmm_range hts
      have hte' := parse_hhmm_range hte
      simp only at h
      split at h
      · rename_i hle
        simp only [Option.some.injEq, Prod.mk.injEq] at h
        omega
      · rename_i hle
        simp only [Option.some.injEq, Prod.mk.injEq] at h
        omega
    · exact absurd h (by simp)

/-- The classifier body, rewritten once the interval is known. -/
theorem classifyItemW_some {now : ℚ} {it : ClassItem} {s e : ℤ} (lookMin : ℚ)
    (h : (itemInterval now it).1 = some (s, e)) :
    classifyItemW lookMin now it =
      if (s : ℚ) ≤ now ∧ now < (e : ℚ) then
        .cur ⟨it.start, it.end_, it.activity, it.teacher, it.location, it.tag,
          (if (e : ℚ) - (s : ℚ) ≤ 0 then 0
            else qmax 0 (qmin 1 ((now - (s : ℚ)) / ((e : ℚ) - (s : ℚ))))), e, s⟩
      else if now ≤ (s : ℚ) ∧ (s : ℚ) ≤ now + lookMin then
        .upc ⟨it.start, it.end_, it.activity, it.teacher, it.location, it.tag,
          qmax (1 / 50)
            (if lookMin ≤ 0 then 0 else qmax 0 (qmin 1 (1 - ((s : ℚ) - now) / lookMin))), e, s⟩
      else .off := by
  unfold classifyItemW
  rw [h]

/-- Inversion for the `current` bucket: the emitted row records the resolved
interval, the membership condition holds, and the progress is the clamped
completion ratio. -/
theorem classify_cur_inv {lookMin now : ℚ} {it : ClassItem} {r : Row}
    (h : classifyItemW lookMin now it = .cur r) :
    (itemInterval now it).1 = some (r.startDt, r.endDt)
      ∧ ((r.startDt : ℚ) ≤ now ∧ now < (r.endDt : ℚ))
      ∧ r.progress = (if (r.endDt : ℚ) - (r.startDt : ℚ) ≤ 0 then 0
          else qmax 0 (qmin 1 ((now - (r.startDt : ℚ)) / ((r.endDt : ℚ) - (r.startDt : ℚ))))) := by
  unfold classifyItemW at h
  rcases hi : (itemInterval now it).1 with _ | ⟨s, e⟩ <;> rw [hi] at h
  · exact absurd h (by simp)
  · simp only at h
    split at h
    · rename_i hcond
      cases h
      exact ⟨rfl, hcond, rfl⟩
    · split at h
      · exact absurd h (by simp)
      · exact absurd h (by simp)

/-- Inversion for the `upcoming` bucket: the row records the resolved
interval, the reference lies strictly before the start (the boundary case
`start = reference` is taken by the `current` branch), the start is inside
the window, and the progress is the floored, clamped "how soon" ratio. -/
theorem classify_upc_inv {lookMin now : ℚ} {it : ClassItem} {r : Row}
    (h : classifyItemW lookMin now it = .upc r) :
    (itemInterval now it).1 = some (r.startDt, r.endDt)
      ∧ (now < (r.startDt : ℚ) ∧ (r.startDt : ℚ) ≤ now + lookMin)
      ∧ r.progress = qmax (1 / 50)
          (if lookMin ≤ 0 then 0
            else qmax 0 (qmin 1 (1 - ((r.startDt : ℚ) - now) / lookMin))) := by
  unfold classifyItemW at h
  rcases hi : (itemInterval now it).1 with _ | ⟨s, e⟩ <;> rw [hi] at h
  · exact absurd h (by simp)
  · have hse : s < e := (itemInterval_bounds hi).1
    simp only at h
    split at h
    · exact absurd h (by simp)
    · split at h
      · rename_i hnotcur hcond
        cases h
        refine ⟨rfl, ⟨?_, hcond.2⟩, rfl⟩
        rcases lt_or_eq_of_le hcond.1 with hlt | heq
        · exact hlt
        · exfalso
          apply hnotcur
          refine ⟨le_of_eq heq.symm, ?_⟩
          calc now = (s : ℚ) := heq
            _ < (e : ℚ) := by exact_mod_cast hse
      · exact absurd h (by simp)

/-- Introduction for the `current` bucket. -/
theorem classify_cur_intro {now : ℚ} {it : ClassItem} {s e : ℤ} (lookMin : ℚ)
    (h : (itemInterval now it).1 = some (s, e))
    (hc : (s : ℚ) ≤ now ∧ now < (e : ℚ)) :
    ∃ r : Row, classifyItemW lookMin now it = .cur r := by
  rw [classifyItemW_some lookMin h, if_pos hc]
  exact ⟨_, rfl⟩

/-- Introduction for the `upcoming` bucket. -/
theorem classify_upc_intro {now : ℚ} {it : ClassItem} {s e : ℤ} (lookMin : ℚ)
    (h : (itemInterval now it).1 = some (s, e))
    (hc : now < (s : ℚ) ∧ (s : ℚ) ≤ now + lookMin) :
    ∃ r : Row, classifyItemW lookMin now it = .upc r := by
  rw [classifyItemW_some lookMin h, if_neg (by push_neg; intro hle; exact absurd hle (not_le.mpr hc.1)),
    if_pos ⟨le_of_lt hc.1, hc.2⟩]
  exact ⟨_, rfl⟩

/-! ## Digit-string lemmas for the time parser -/

/-- The character of a decimal digit. -/
def dChar (d : ℕ) : Char := Char.ofNat (48 + d)

theorem dChar_facts {d : ℕ} (hd : d ≤ 9) :
    pyIsSpace (dChar d) = false ∧ isAsciiDigit (dChar d) = true
      ∧ (dChar d).toNat - 48 = d ∧ dChar d ≠ ':' ∧ dChar d ≠ '+' ∧ dChar d ≠ '-' := by
  interval_cases d <;> exact by decide

theorem dropWhile_eq_self_of_none (p : Char → Bool) (l : List Char)
    (h : ∀ c ∈ l, p c = false) : l.dropWhile p = l := by
  cases l with
  | nil => rfl
  | cons a t => simp [List.dropWhile_cons, h a (by simp)]

theorem pyStrip_eq_self {l : List Char} (h : ∀ c ∈ l, pyIsSpace c = false) :
    pyStrip l = l := by
  unfold pyStrip
  rw [dropWhile_eq_self_of_none _ _ h,
    dropWhile_eq_self_of_none _ _ fun c hc => h c (List.mem_reverse.mp hc),
    List.reverse_reverse]

theorem splitOn_hhmm {c1 c2 c3 c4 : Char} (h1 : c1 ≠ ':') (h2 : c2 ≠ ':')
    (h3 : c3 ≠ ':') (h4 : c4 ≠ ':') :
    splitOnChar ':' [c1, c2, ':', c3, c4] = [[c1, c2], [c3, c4]] := by
  simp [splitOnChar, h1, h2, h3, h4]

theorem splitOn_hhmmss {c1 c2 c3 c4 c5 c6 : Char} (h1 : c1 ≠ ':') (h2 : c2 ≠ ':')
    (h3 : c3 ≠ ':') (h4 : c4 ≠ ':') (h5 : c5 ≠ ':') (h6 : c6 ≠ ':') :
    splitOnChar ':' [c1, c2, ':', c3, c4, ':', c5, c6] = [[c1, c2], [c3, c4], [c5, c6]] := by
  simp [splitOnChar, h1, h2, h3, h4, h5, h6]

theorem digitsVal_two {d1 d2 : ℕ} (h1 : d1 ≤ 9) (h2 : d2 ≤ 9) :
    digitsVal [dChar d1, dChar d2] = some ((10 * d1 + d2 : ℕ) : ℤ) := by
  obtain ⟨-, hd1, ht1, -⟩ := dChar_facts h1
  obtain ⟨-, hd2, ht2, -⟩ := dChar_facts h2
  simp only [digitsVal, digitsToNat, List.foldl, List.all_cons, List.all_nil, hd1, hd2,
    Bool.and_true, and_true, ne_eq, if_pos]
  simp [ht1, ht2]

theorem pyInt_two_digits {d1 d2 : ℕ} (h1 : d1 ≤ 9) (h2 : d2 ≤ 9) :
    pyInt [dChar d1, dChar d2] = some ((10 * d1 + d2 : ℕ) : ℤ) := by
  obtain ⟨hs1, -, -, -, hp1, hm1⟩ := dChar_facts h1
  obtain ⟨hs2, -, -, -, -, -⟩ := dChar_facts h2
  unfold pyInt
  rw [pyStrip_eq_self (by
    intro c hc
    simp only [List.mem_cons, List.not_mem_nil, or_false] at hc
    rcases hc with rfl | rfl <;> assumption)]
  simp only [hp1, hm1, if_neg, ite_false]
  exact digitsVal_two h1 h2

/-- Evaluation of the parser on a well-formed `HH:MM` digit string. -/
theorem parse_hhmm_digits {h1 h2 m1 m2 : ℕ} (b1 : h1 ≤ 9) (b2 : h2 ≤ 9)
    (b3 : m1 ≤ 9) (b4 : m2 ≤ 9) :
    parse_hhmm (String.mk [dChar h1, dChar h2, ':', dChar m1, dChar m2]) =
      if 10 * h1 + h2 ≤ 23 ∧ 10 * m1 + m2 ≤ 59 then
        some ((60 * (10 * h1 + h2) + (10 * m1 + m2) : ℕ) : ℤ)
      else none := by
  obtain ⟨w1, -, -, n1, -⟩ := dChar_facts b1
  obtain ⟨w2, -, -, n2, -⟩ := dChar_facts b2
  obtain ⟨w3, -, -, n3, -⟩ := dChar_facts b3
  obtain ⟨w4, -, -, n4, -⟩ := dChar_facts b4
  have hno : ∀ c ∈ ([dChar h1, dChar h2, ':', dChar m1, dChar m2] : List Char),
      pyIsSpace c = false := by
    intro c hc
    simp only [List.mem_cons, List.not_mem_nil, or_false] at hc
    rcases hc with rfl | rfl | rfl | rfl | rfl
    exacts [w1, w2, by decide, w3, w4]
  have hl := pyStrip_eq_self hno
  have hsp := splitOn_hhmm n1 n2 n3 n4
  simp only [parse_hhmm, hl, hsp, pyInt_two_digits b1 b2, pyInt_two_digits b3 b4,
    List.length_cons, List.length_nil]
  rw [if_neg (List.cons_ne_nil _ _), if_neg (by norm_num)]
  split_ifs with hc hc' hc'
  · simp only [Option.some.injEq]
    push_cast
    ring
  · exfalso
    push_cast at hc
    omega
  · exfalso
    push_cast at hc
    omega
  · rfl

/-- Evaluation of the parser on a well-formed `HH:MM:SS` digit string: the
seconds field is ignored. -/
theorem parse_hhmmss_digits {h1 h2 m1 m2 s1 s2 : ℕ} (b1 : h1 ≤ 9) (b2 : h2 ≤ 9)
    (b3 : m1 ≤ 9) (b4 : m2 ≤ 9) (b5 : s1 ≤ 9) (b6 : s2 ≤ 9) :
    parse_hhmm (String.mk [dChar h1, dChar h2, ':', dChar m1, dChar m2, ':',
        dChar s1, dChar s2]) =
      if 10 * h1 + h2 ≤ 23 ∧ 10 * m1 + m2 ≤ 59 then
        some ((60 * (10 * h1 + h2) + (10 * m1 + m2) : ℕ) : ℤ)
      else none := by
  obtain ⟨w1, -, -, n1, -⟩ := dChar_facts b1
  obtain ⟨w2, -, -, n2, -⟩ := dChar_facts b2
  obtain ⟨w3, -, -, n3, -⟩ := dChar_facts b3
  obtain ⟨w4, -, -, n4, -⟩ := dChar_facts b4
  obtain ⟨w5, -, -, n5, -⟩ := dChar_facts b5
  obtain ⟨w6, -, -, n6, -⟩ := dChar_facts b6
  have hno : ∀ c ∈ ([dChar h1, dChar h2, ':', dChar m1, dChar m2, ':',
      dChar s1, dChar s2] : List Char), pyIsSpace c = false := by
    intro c hc
    simp only [List.mem_cons, List.not_mem_nil, or_false] at hc
    rcases hc with rfl | rfl | rfl | rfl | rfl | rfl | rfl | rfl
    exacts [w1, w2, by decide, w3, w4, by decide, w5, w6]
  have hl := pyStrip_eq_self hno
  have hsp := splitOn_hhmmss n1 n2 n3 n4 n5 n6
  simp only [parse_hhmm, hl, hsp, pyInt_two_digits b1 b2, pyInt_two_digits b3 b4,
    List.length_cons, List.length_nil]
  rw [if_neg (List.cons_ne_nil _ _), if_neg (by norm_num)]
  split_ifs with hc hc' hc'
  · simp only [Option.some.injEq]
    push_cast
    ring
  · exfalso
    push_cast at hc
    omega
  · exfalso
    push_cast at hc
    omega
  · rfl

/-! ## Claim C8: the time-of-day parser -/

/-- C8 (counterexample): the claim says the parser returns a value exactly
when the text is well-formed `HH:MM` or `HH:MM:SS`, but `"12:34:x!"` is not
well-formed (its seconds field is not digits) and still parses to 754: the
code ignores everything beyond the first two `:`-separated fields. -/
theorem c8_counterexample :
    parse_hhmm "12:34:x!" = some 754 ∧ wellFormedTime "12:34:x!" = false := by
  exact ⟨by decide, by decide⟩

/-- C8 (amended): on every well-formed `HH:MM` or `HH:MM:SS` text the parser
returns `60 * HH + MM` when hour and minute are in range and no value when
they are out of range (the seconds field being ignored), and every value it
ever returns lies in `[0, 1440)`; it never raises (it is a total function
into `Option`). It also accepts some malformed texts, per the
counterexample. -/
theorem c8_time_parse_characterization :
    (∀ h1 h2 m1 m2 : ℕ, h1 ≤ 9 → h2 ≤ 9 → m1 ≤ 9 → m2 ≤ 9 →
      parse_hhmm (String.mk [dChar h1, dChar h2, ':', dChar m1, dChar m2]) =
        if 10 * h1 + h2 ≤ 23 ∧ 10 * m1 + m2 ≤ 59 then
          some ((60 * (10 * h1 + h2) + (10 * m1 + m2) : ℕ) : ℤ)
        else none)
    ∧ (∀ h1 h2 m1 m2 s1 s2 : ℕ, h1 ≤ 9 → h2 ≤ 9 → m1 ≤ 9 → m2 ≤ 9 → s1 ≤ 9 → s2 ≤ 9 →
      parse_hhmm (String.mk [dChar h1, dChar h2, ':', dChar m1, dChar m2, ':',
          dChar s1, dChar s2]) =
        if 10 * h1 + h2 ≤ 23 ∧ 10 * m1 + m2 ≤ 59 then
          some ((60 * (10 * h1 + h2) + (10 * m1 + m2) : ℕ) : ℤ)
        else none)
    ∧ (∀ (s : String) (m : ℤ), parse_hhmm s = some m → 0 ≤ m ∧ m < 1440) :=
  ⟨fun _ _ _ _ b1 b2 b3 b4 => parse_hhmm_digits b1 b2 b3 b4,
   fun _ _ _ _ _ _ b1 b2 b3 b4 b5 b6 => parse_hhmmss_digits b1 b2 b3 b4 b5 b6,
   fun _ _ h => parse_hhmm_range h⟩

/-- C8 (witness): the amended theorem applied at `"09:30"` (in range) and
`"25:00"` (hour out of range). -/
theorem c8_witness : parse_hhmm "09:30" = some 570 ∧ parse_hhmm "25:00" = none := by
  have e1 : String.mk [dChar 0, dChar 9, ':', dChar 3, dChar 0] = "09:30" := by decide
  have e2 : String.mk [dChar 2, dChar 5, ':', dChar 0, dChar 0] = "25:00" := by decide
  have h1 := c8_time_parse_characterization.1 0 9 3 0 (by norm_num) (by norm_num) (by norm_num) (by norm_num)
  have h2 := c8_time_parse_characterization.1 2 5 0 0 (by norm_num) (by norm_num) (by norm_num) (by norm_num)
  rw [e1] at h1
  rw [e2] at h2
  norm_num at h1 h2
  exact ⟨h1, h2⟩

/-! ## Claim C3: the upcoming bucket -/

/-- C3 (counterexample): the claim's "upcoming iff
`reference ≤ start ≤ reference + 120`" fails at the boundary: an entry whose
resolved start equals the reference satisfies that condition yet the
upcoming bucket stays empty (the entry is taken by the current bucket, since
its resolved end is always strictly later). -/
theorem c3_counterexample :
    (itemInterval 540 ⟨"SEG", "09:00", "10:00", "Treino", "Ana", "Quadra", "GERAL"⟩).1
        = some (540, 600)
    ∧ ((540 : ℚ) ≤ ((540 : ℤ) : ℚ) ∧ ((540 : ℤ) : ℚ) ≤ 540 + 120)
    ∧ nextRows 540 [⟨"SEG", "09:00", "10:00", "Treino", "Ana", "Quadra", "GERAL"⟩] = []
    ∧ nowRows 540 [⟨"SEG", "09:00", "10:00", "Treino", "Ana", "Quadra", "GERAL"⟩] ≠ [] := by
  refine ⟨by decide, by norm_num, by decide, by decide⟩

/-- C3 (amended): an entry is upcoming iff
`reference < start_instant ≤ reference + lookahead` (strict at the left
boundary); its progress is `1 − (start − reference) / lookahead` clamped to
`[0, 1]` and floored at `0.02`; and with a non-positive lookahead window no
entry is upcoming at all (so the original "progress is 0" clause holds
vacuously — in the program the window is the constant 120 minutes). -/
theorem c3_upcoming_bucket :
    ∀ (lookMin now : ℚ) (it : ClassItem) (s e : ℤ),
      (itemInterval now it).1 = some (s, e) →
      (((∃ r, classifyItemW lookMin now it = .upc r) ↔
          (now < (s : ℚ) ∧ (s : ℚ) ≤ now + lookMin))
        ∧ (∀ r, classifyItemW lookMin now it = .upc r → 0 < lookMin →
            r.progress = max (1 / 50) (max 0 (min 1 (1 - ((s : ℚ) - now) / lookMin))))
        ∧ (lookMin ≤ 0 → ∀ r, classifyItemW lookMin now it ≠ .upc r)) := by
  intro lookMin now it s e h
  have hiff : (∃ r, classifyItemW lookMin now it = .upc r) ↔
      (now < (s : ℚ) ∧ (s : ℚ) ≤ now + lookMin) := by
    constructor
    · rintro ⟨r, hr⟩
      obtain ⟨hi, hcond, -⟩ := classify_upc_inv hr
      rw [h] at hi
      simp only [Option.some.injEq, Prod.mk.injEq] at hi
      rw [hi.1]
      exact hcond
    · intro hc
      exact classify_upc_intro lookMin h hc
  refine ⟨hiff, ?_, ?_⟩
  · intro r hr hpos
    obtain ⟨hi, -, hprog⟩ := classify_upc_inv hr
    rw [h] at hi
    simp only [Option.some.injEq, Prod.mk.injEq] at hi
    rw [hprog, hi.1, if_neg (not_le.mpr hpos)]
    simp only [qmax_eq_max, qmin_eq_min]
  · intro hneg r hr
    have hc := hiff.mp ⟨r, hr⟩
    have : now < now + lookMin := lt_of_lt_of_le hc.1 hc.2
    linarith

/-- C3 (witness): the amended characterization at a concrete instance — an
entry starting 30 minutes after the reference, with the 120-minute window,
is upcoming, and its progress is `1 − 30/120 = 3/4`. -/
theorem c3_witness :
    (∃ r, classifyItemW 120 540 ⟨"SEG", "09:30", "10:30", "Judo", "Iva", "Tatame", "GERAL"⟩
        = .upc r)
    ∧ ∀ r, classifyItemW 120 540 ⟨"SEG", "09:30", "10:30", "Judo", "Iva", "Tatame", "GERAL"⟩
        = .upc r → r.progress = 3 / 4 := by
  have h : (itemInterval 540 ⟨"SEG", "09:30", "10:30", "Judo", "Iva", "Tatame", "GERAL"⟩).1
      = some (570, 630) := by decide
  obtain ⟨hiff, hprog, -⟩ :=
    c3_upcoming_bucket 120 540 ⟨"SEG", "09:30", "10:30", "Judo", "Iva", "Tatame", "GERAL"⟩
      570 630 h
  refine ⟨hiff.mpr (by norm_num), ?_⟩
  intro r hr
  rw [hprog r hr (by norm_num)]
  norm_num

/-! ## Claim C4: the current bucket -/

/-- C4: an entry is current iff `start ≤ reference < end` over the resolved
interval, with progress the completion ratio clamped to `[0, 1]` (`0` for a
non-positive duration); in particular a 09:00–10:00 entry on today's weekday
evaluated at 09:30 is current with progress exactly `1/2`. -/
theorem c4_current_bucket :
    (∀ (now : ℚ) (it : ClassItem) (s e : ℤ),
      (itemInterval now it).1 = some (s, e) →
      (((∃ r, classifyItem now it = .cur r) ↔ ((s : ℚ) ≤ now ∧ now < (e : ℚ)))
        ∧ ∀ r, classifyItem now it = .cur r →
            r.progress = if (e : ℚ) - (s : ℚ) ≤ 0 then 0
              else max 0 (min 1 ((now - (s : ℚ)) / ((e : ℚ) - (s : ℚ))))))
    ∧ (∃ r, classifyItem 570 ⟨"SEG", "09:00", "10:00", "Natacao", "Bia", "Piscina", "GERAL"⟩
          = .cur r ∧ r.progress = 1 / 2) := by
  constructor
  · intro now it s e h
    constructor
    · constructor
      · rintro ⟨r, hr⟩
        obtain ⟨hi, hcond, -⟩ := classify_cur_inv hr
        rw [h] at hi
        simp only [Option.some.injEq, Prod.mk.injEq] at hi
        rw [hi.1, hi.2]
        exact hcond
      · intro hc
        exact classify_cur_intro 120 h hc
    · intro r hr
      obtain ⟨hi, -, hprog⟩ := classify_cur_inv hr
      rw [h] at hi
      simp only [Option.some.injEq, Prod.mk.injEq] at hi
      rw [hprog, hi.1, hi.2]
      simp only [qmax_eq_max, qmin_eq_min]
  · have h : (itemInterval 570 ⟨"SEG", "09:00", "10:00", "Natacao", "Bia", "Piscina", "GERAL"⟩).1
        = some (540, 600) := by decide
    refine ⟨⟨"09:00", "10:00", "Natacao", "Bia", "Piscina", "GERAL", 1 / 2, 600, 540⟩, ?_, rfl⟩
    rw [classifyItem, classifyItemW_some 120 h, if_pos (by norm_num)]
    norm_num [qmax, qmin]

/-- C4 (witness): the characterization applied at 09:30 to a 09:00–10:00
entry anchored on the reference's own weekday. -/
theorem c4_witness :
    ((∃ r, classifyItem 570 ⟨"SEG", "09:00", "10:00", "Yoga", "Lu", "Sala 2", "GERAL"⟩ = .cur r)
      ↔ (((540 : ℤ) : ℚ) ≤ 570 ∧ (570 : ℚ) < ((600 : ℤ) : ℚ))) := by
  have h : (itemInterval 570 ⟨"SEG", "09:00", "10:00", "Yoga", "Lu", "Sala 2", "GERAL"⟩).1
      = some (540, 600) := by decide
  exact (c4_current_bucket.1 570 _ 540 600 h).1

/-! ## Claim C5: midnight-crossing push-forward -/

/-- C5: whenever the combined end instant does not land strictly after the
combined start instant, the resolver pushes the end forward exactly one day
(1440 minutes); for a 23:30–00:30 entry the resolved end is the start plus
one hour and falls on the next calendar day. -/
theorem c5_midnight_push :
    (∀ (now : ℚ) (it : ClassItem) (d ts te : ℤ),
      bestDateForDaycode (dateOf now) it.day = some d →
      parse_hhmm it.start = some ts →
      parse_hhmm it.end_ = some te →
      te ≤ ts →
      (itemInterval now it).1 = some (1440 * d + ts, 1440 * d + te + 1440))
    ∧ ((itemInterval 0 ⟨"SEG", "23:30", "00:30", "Plantao", "Gil", "Portaria", "GERAL"⟩).1
          = some (1410, 1470)
        ∧ (1470 : ℤ) = 1410 + 60
        ∧ dateOf ((1470 : ℤ) : ℚ) = dateOf ((1410 : ℤ) : ℚ) + 1) := by
  constructor
  · intro now it d ts te hbd hts hte hle
    unfold itemInterval
    rw [hbd, hts, hte]
    simp only
    rw [if_pos (by omega)]
  · exact ⟨by decide, by decide, by decide⟩

/-- C5 (witness): the push-forward rule applied to the 23:30–00:30 entry of
the claim, anchored at the epoch Monday. -/
theorem c5_witness :
    (itemInterval 0 ⟨"SEG", "23:30", "00:30", "Ronda", "Rui", "Patio", "GERAL"⟩).1
      = some (1440 * 0 + 1410, 1440 * 0 + 30 + 1440) := by
  exact c5_midnight_push.1 0 _ 0 1410 30 (by decide) (by decide) (by decide) (by decide)

/-! ## Claim C6: ordering and truncation of the output sequences -/

/-- C6: for every reference instant and entry collection, each returned
sequence is the projection of a sorted permutation of its bucket — current
ascending by resolved end instant, upcoming ascending by resolved start
instant — truncated to at most 6 cards. -/
theorem c6_sorted_capped :
    ∀ (now : ℚ) (items : List ClassItem),
      (computeNowNext now items).1.length ≤ 6
      ∧ (computeNowNext now items).2.length ≤ 6
      ∧ (∃ rows : List Row, List.Perm rows (nowRows now items)
          ∧ List.Sorted rowEndLe rows
          ∧ (computeNowNext now items).1 = (rows.map Row.toCard).take 6)
      ∧ (∃ rows : List Row, List.Perm rows (nextRows now items)
          ∧ List.Sorted rowStartLe rows
          ∧ (computeNowNext now items).2 = (rows.map Row.toCard).take 6) := by
  intro now items
  refine ⟨?_, ?_, ?_, ?_⟩
  · exact List.length_take_le _ _
  · exact List.length_take_le _ _
  · exact ⟨(nowRows now items).insertionSort rowEndLe,
      List.perm_insertionSort rowEndLe _, List.sorted_insertionSort rowEndLe _, rfl⟩
  · exact ⟨(nextRows now items).insertionSort rowStartLe,
      List.perm_insertionSort rowStartLe _, List.sorted_insertionSort rowStartLe _, rfl⟩

/-! ## Claim C9: disjointness of the two buckets -/

/-- C9: no row ever appears in both buckets of one classification pass, and
in particular an entry whose resolved start equals the reference satisfies
the raw upcoming condition `reference ≤ start ≤ reference + 120` yet is
classified only as current (its resolved end is always strictly after its
start, hence after the reference). -/
theorem c9_buckets_disjoint :
    (∀ (now : ℚ) (items : List ClassItem) (r : Row),
        r ∈ nowRows now items → r ∉ nextRows now items)
    ∧ (∀ (now : ℚ) (it : ClassItem) (s e : ℤ),
        (itemInterval now it).1 = some (s, e) → (s : ℚ) = now →
        ((now ≤ (s : ℚ) ∧ (s : ℚ) ≤ now + 120)
          ∧ (∃ r, classifyItem now it = .cur r)
          ∧ ∀ r, classifyItem now it ≠ .upc r)) := by
  constructor
  · intro now items r hmem hmem'
    simp only [nowRows, nowRowsW, List.mem_filterMap] at hmem
    simp only [nextRows, nextRowsW, List.mem_filterMap] at hmem'
    obtain ⟨it, -, hit⟩ := hmem
    obtain ⟨it', -, hit'⟩ := hmem'
    have hcur : classifyItemW 120 now it = .cur r := by
      rcases hc : classifyItemW 120 now it <;> rw [hc] at hit <;> simp_all
    have hupc : classifyItemW 120 now it' = .upc r := by
      rcases hc : classifyItemW 120 now it' <;> rw [hc] at hit' <;> simp_all
    have h1 : (r.startDt : ℚ) ≤ now := (classify_cur_inv hcur).2.1.1
    have h2 : now < (r.startDt : ℚ) := (classify_upc_inv hupc).2.1.1
    linarith
  · intro now it s e h hs
    have hse : s < e := (itemInterval_bounds h).1
    have hnow_lt : now < (e : ℚ) := by
      rw [← hs]
      exact_mod_cast hse
    refine ⟨⟨le_of_eq hs.symm, by linarith⟩, ?_, ?_⟩
    · exact classify_cur_intro 120 h ⟨le_of_eq hs, hnow_lt⟩
    · intro r hr
      have := (classify_upc_inv hr).2.1.1
      obtain ⟨hi, -, -⟩ := classify_upc_inv hr
      rw [h] at hi
      simp only [Option.some.injEq, Prod.mk.injEq] at hi
      rw [← hi.1] at this
      rw [hs] at this
      exact lt_irrefl now this

/-- C9 (witness): the boundary case at a concrete entry whose resolved start
is exactly the reference instant. -/
theorem c9_witness :
    ((540 : ℚ) ≤ (((540 : ℤ)) : ℚ) ∧ (((540 : ℤ)) : ℚ) ≤ 540 + 120)
    ∧ (∃ r, classifyItem 540 ⟨"SEG", "09:00", "10:00", "Danca", "Mel", "Salao", "GERAL"⟩ = .cur r)
    ∧ ∀ r, classifyItem 540 ⟨"SEG", "09:00", "10:00", "Danca", "Mel", "Salao", "GERAL"⟩
        ≠ .upc r := by
  have h : (itemInterval 540 ⟨"SEG", "09:00", "10:00", "Danca", "Mel", "Salao", "GERAL"⟩).1
      = some (540, 600) := by decide
  exact c9_buckets_disjoint.2 540 _ 540 600 h (by norm_num)

/-! ## Claim C1: the "tomorrow" min/max label -/

/-- C1 (code bug): `_minmax_tomorrow` never reads the forecast points'
timestamps — it folds the min/max over the whole timeseries. On a series
with a 10° point today (minute 600 of day 0) and a 20° point tomorrow
(minute 600 of day 1), the code produces `(10, 20)` and renders
"Amanhã: 10–20°C", while the spec's next-day-bucket rule gives `(20, 20)`:
today's temperature leaks into the "tomorrow" label. -/
theorem c1_minmax_ignores_timestamps :
    minmaxTomorrow (.jarr
        [.jobj [("time", .jnum 600),
                ("data", .jobj [("instant",
                  .jobj [("details", .jobj [("air_temperature", .jnum 10)])])])],
         .jobj [("time", .jnum 2040),
                ("data", .jobj [("instant",
                  .jobj [("details", .jobj [("air_temperature", .jnum 20)])])])]])
      = .ok (some 10, some 20)
    ∧ minmaxTomorrowSpec 0
        [.jobj [("time", .jnum 600),
                ("data", .jobj [("instant",
                  .jobj [("details", .jobj [("air_temperature", .jnum 10)])])])],
         .jobj [("time", .jnum 2040),
                ("data", .jobj [("instant",
                  .jobj [("details", .jobj [("air_temperature", .jnum 20)])])])]]
      = (some 20, some 20)
    ∧ ((some (10 : ℤ), some (20 : ℤ)) ≠ ((some 20, some 20) : Option ℤ × Option ℤ))
    ∧ (extractSummary (.jobj [("properties", .jobj [("timeseries", .jarr
        [.jobj [("time", .jnum 600),
                ("data", .jobj [("instant",
                  .jobj [("details", .jobj [("air_temperature", .jnum 10)])])])],
         .jobj [("time", .jnum 2040),
                ("data", .jobj [("instant",
                  .jobj [("details", .jobj [("air_temperature", .jnum 20)])])])]])])])
        10 0).map WeatherResult.tomorrow_label = .ok "Amanhã: 10–20°C" := by
  exact ⟨rfl, by decide, by decide, rfl⟩

/-! ## Claim C2: the failure path of `get_weather` -/

/-- C2 (code bug): the claim (and the module's own header, "never falls
over — always falls back to the cache") says every fetch failure yields a
degraded result; but when the cache file parses to a truthy non-dict JSON
value (here the array `[1]`), the `except` handler itself raises
`AttributeError` at `cached.get("payload")`, and `get_weather` raises
instead of returning the sentinel snapshot. -/
theorem c2_fallback_raises_on_nondict_cache :
    getWeatherModel none (some (.jarr [.jnum 1])) 10 1000 = .error .attributeError
    ∧ getWeatherFallback (some (.jarr [.jnum 1])) 10 1000 ≠ .ok sentinelResult := by
  refine ⟨rfl, ?_⟩
  have he : getWeatherFallback (some (.jarr [.jnum 1])) 10 1000 = .error .attributeError := rfl
  rw [he]
  intro h
  exact Except.noConfusion h

/-! ## Claim C7: the retry policy of `_http_get_json` -/

/-- C7: the network layer makes at most 2 attempts; a transient failure
(`URLError` or any non-HTTP exception) on the first attempt causes exactly
one 0.4-second delay and exactly one second attempt; an `HTTPError` is
re-raised immediately after the first attempt with no delay and no retry. -/
theorem c7_retry_policy :
    ∀ net : ℕ → NetOutcome,
      (httpGetJson net).attempts ≤ 2
      ∧ ((net 1 = .urlError ∨ net 1 = .exc) →
          (httpGetJson net).attempts = 2 ∧ (httpGetJson net).sleeps = [(0.4 : ℚ)])
      ∧ (net 1 = .httpError →
          (httpGetJson net).result = .error .http ∧ (httpGetJson net).attempts = 1
            ∧ (httpGetJson net).sleeps = [])
      ∧ (∀ p, net 1 = .success p →
          (httpGetJson net).result = .ok p ∧ (httpGetJson net).attempts = 1) := by
  intro net
  have h04 : (0.4 : ℚ) = 2 / 5 := by norm_num
  rcases h1 : net 1 with p | _ | _ | _ <;>
    simp only [httpGetJson, h1] <;>
    [skip; skip; rcases h2 : net 2 with q | _ | _ | _; rcases h2 : net 2 with q | _ | _ | _] <;>
    simp_all [h04]

/-- C7 (witness): an HTTP status error on the first attempt is raised at
once — one attempt, no sleep, no retry. -/
theorem c7_witness :
    (httpGetJson fun _ => NetOutcome.httpError).result = .error .http
    ∧ (httpGetJson fun _ => NetOutcome.httpError).attempts = 1
    ∧ (httpGetJson fun _ => NetOutcome.httpError).sleeps = [] :=
  (c7_retry_policy fun _ => NetOutcome.httpError).2.2.1 rfl

/-! ## Claim C10: the `ok` flag of degraded snapshots -/

/-- C10: a fallback snapshot has `ok = false` exactly when it is the
sentinel "no data" snapshot; a snapshot rebuilt from a cached dict payload
has `ok = true` and `source = "cache"` with `cache_ts` the stored `"ts"`
value; and every snapshot built from a network response has `ok = true` and
`source = "online"` — so `ok` does not distinguish fresh from cached data,
only `source` does. -/
theorem c10_ok_flag :
    (∀ (cached : Option JVal) (nowHour nowTs : ℤ) (res : WeatherResult),
        getWeatherFallback cached nowHour nowTs = .ok res →
        (res.ok = false ↔ res = sentinelResult))
    ∧ (∀ (fs : List (String × JVal)) (nowHour nowTs : ℤ) (res : WeatherResult),
        getWeatherFallback (some (.jobj fs)) nowHour nowTs = .ok res →
        isDict ((fs.lookup "payload").getD .jnull) = true →
        res.ok = true ∧ res.source = "cache" ∧ res.cache_ts = (fs.lookup "ts").getD .jnull)
    ∧ (∀ (payload : JVal) (nowHour nowTs : ℤ) (res : WeatherResult),
        extractSummary payload nowHour nowTs = .ok res →
        res.ok = true ∧ res.source = "online") := by
  have extract_ok : ∀ (payload : JVal) (nowHour nowTs : ℤ) (res : WeatherResult),
      extractSummary payload nowHour nowTs = .ok res →
      res.ok = true ∧ res.source = "online" := by
    intro payload nowHour nowTs res h
    simp only [extractSummary, bind, Except.bind, pure, Except.pure] at h
    repeat' split at h
    all_goals first
      | exact Except.noConfusion h
      | (injection h with h; subst h; exact ⟨rfl, rfl⟩)
  refine ⟨?_, ?_, extract_ok⟩
  · intro cached nowHour nowTs res h
    rcases cached with _ | c
    · simp only [getWeatherFallback] at h
      injection h with h
      subst h
      simp [sentinelResult]
    · simp only [getWeatherFallback] at h
      split at h
      · split at h
        · exact Except.noConfusion h
        · split at h
          · split at h
            · exact Except.noConfusion h
            · split at h
              · exact Except.noConfusion h
              · injection h with h
                subst h
                constructor
                · intro hfalse
                  exact absurd hfalse (by simp)
                · intro heq
                  rw [heq]
                  rfl
          · injection h with h
            subst h
            simp [sentinelResult]
      · injection h with h
        subst h
        simp [sentinelResult]
  · intro fs nowHour nowTs res h hdict
    simp only [getWeatherFallback] at h
    split at h
    · split at h
      · rename_i e hpv
        exact absurd hpv (by simp [pyGet, pyGetD])
      · rename_i pv hpv
        have hpv' : pv = (fs.lookup "payload").getD .jnull := by
          simp only [pyGet, pyGetD, Except.ok.injEq] at hpv
          exact hpv.symm
        subst hpv'
        split at h
        · split at h
          · exact Except.noConfusion h
          · split at h
            · exact Except.noConfusion h
            · rename_i tsv htsv
              simp only [pyGet, pyGetD, Except.ok.injEq] at htsv
              injection h with h
              subst h
              exact ⟨rfl, rfl, htsv ▸ rfl⟩
        · exact absurd hdict (by simp_all)
    · rename_i htr
      exfalso
      rcases fs with _ | ⟨p, rest⟩
      · simp [isDict] at hdict
      · simp [truthy] at htr
/-- The snapshot `get_weather` rebuilds from a cache record
`{"ts": 5, "payload": {}}` after a fetch failure. -/
def c10CacheRes : WeatherResult :=
  { ok := true
    temp_c := none
    today_label := "Hoje (manhã): Sem dados"
    tomorrow_label := "Amanhã: —"
    symbol_code := .jnull
    source := "cache"
    cache_ts := .jnum 5 }

/-- C10 (witness): the `ok`-flag theorem applied to a concrete cache record
with a dict payload and stored timestamp 5. -/
theorem c10_witness :
    getWeatherFallback (some (.jobj [("ts", .jnum 5), ("payload", .jobj [])])) 10 99
        = .ok c10CacheRes
    ∧ c10CacheRes.ok = true ∧ c10CacheRes.source = "cache"
    ∧ c10CacheRes.cache_ts = .jnum 5 := by
  have h : getWeatherFallback (some (.jobj [("ts", .jnum 5), ("payload", .jobj [])])) 10 99
      = .ok c10CacheRes := rfl
  obtain ⟨h1, h2, h3⟩ :=
    c10_ok_flag.2.1 [("ts", .jnum 5), ("payload", .jobj [])] 10 99 c10CacheRes h rfl
  exact ⟨h, h1, h2, h3.trans rfl⟩

end Clubal
